import Mathlib

/-!
Verification of the CV-generation service (`src/app.py`) against its
natural-language specification.

The development shallowly embeds the Flask endpoint `generate_cv` and the
helper `validate_color`.  Python strings are modelled as Lean `String`
(a wrapper around `List Char`), JSON payloads as the inductive `JVal`,
Python exceptions as the error side of `Except Exc`, and the produced
word-processing document as a list of `Block`s (styled paragraphs,
horizontal rules, and the skills table).  Formatting attributes that no
claim mentions (paragraph spacing, indents, line spacing, page geometry,
column widths) are not recorded; the docx library's primitives are
modelled as always succeeding, per the spec's collaborator contract.
-/

/-! ## Python string primitives -/

/-- The ASCII whitespace characters Python's `str.strip` / `int` removes.
(Unicode whitespace is stripped too by Python; no claim exercises it.) -/
def isPySpace (c : Char) : Bool :=
  c = ' ' || c = '\t' || c = '\n' || c = '\r' || c = '\x0b' || c = '\x0c'

/-- Strip leading and trailing whitespace from a character list. -/
def stripList (l : List Char) : List Char :=
  ((l.dropWhile isPySpace).reverse.dropWhile isPySpace).reverse

/-- Python `s.strip()`. -/
def pyStrip (s : String) : String := String.mk (stripList s.toList)

/-- Python `s.lstrip('#')` (removes every leading `#`). -/
def pyLstripHash (s : String) : String :=
  String.mk (s.toList.dropWhile (fun c => c = '#'))

/-- Python `sep.join(parts)` at the character level. -/
def joinParts (sep : List Char) : List (List Char) → List Char
  | [] => []
  | [x] => x
  | x :: y :: rest => x ++ sep ++ joinParts sep (y :: rest)

/-- Python `sep.join(parts)` on strings. -/
def pyJoin (sep : String) (l : List String) : String :=
  String.mk (joinParts sep.toList (l.map String.toList))

/-- Split a character list at every occurrence of `c`
(Python `s.split(c)` for a one-character separator). -/
def splitCh (c : Char) : List Char → List (List Char)
  | [] => [[]]
  | a :: as =>
    let r := splitCh c as
    if a = c then [] :: r else (a :: r.headD []) :: r.tail

/-- Python `s.split(c)` on strings, one-character separator. -/
def pySplitC (c : Char) (s : String) : List String :=
  (splitCh c s.toList).map String.mk

/-- Python `s.capitalize()`: first character upper-cased, the rest lower-cased. -/
def pyCapitalize (s : String) : String :=
  match s.toList with
  | [] => ""
  | c :: rest => String.mk (c.toUpper :: rest.map Char.toLower)

/-- Does `s` start with the pattern `pat`? (first argument of `startsList` is
the pattern). -/
def startsList : List Char → List Char → Bool
  | [], _ => true
  | _ :: _, [] => false
  | p :: ps, c :: cs => p = c && startsList ps cs

/-- Python `s.startswith(pat)`. -/
def pyStartsWith (s pat : String) : Bool := startsList pat.toList s.toList

/-- Duplicate every character (Python `''.join(c * 2 for c in s)`). -/
def dupChars : List Char → List Char
  | [] => []
  | c :: rest => c :: c :: dupChars rest

/-! ## Python's base-16 integer parser

`validate_color` defers hex validation to `int(color, 16)`.  Besides plain
hexadecimal digits, that parser tolerates surrounding whitespace, one
leading sign, a `0x`/`0X` prefix, and single underscores between digits
(one also allowed right after the prefix).  We model exactly that
acceptance grammar. -/

/-- Is `c` a hexadecimal digit? -/
def isHexDigit (c : Char) : Bool :=
  ('0' ≤ c && c ≤ '9') || ('a' ≤ c && c ≤ 'f') || ('A' ≤ c && c ≤ 'F')

/-- Hex digits with single embedded underscores, continuing a digit run:
`(['_'] digit)*` with no trailing or doubled underscore. -/
def digitsTail : List Char → Bool
  | [] => true
  | c :: r =>
    if c = '_' then
      match r with
      | [] => false
      | d :: r2 => isHexDigit d && digitsTail r2
    else isHexDigit c && digitsTail r

/-- A nonempty underscore-separated digit run: `digit (['_'] digit)*`. -/
def digitsU : List Char → Bool
  | [] => false
  | c :: r => isHexDigit c && digitsTail r

/-- After a `0x`/`0X` prefix one leading underscore is allowed. -/
def hexTail : List Char → Bool
  | [] => false
  | c :: r => if c = '_' then digitsU r else digitsU (c :: r)

/-- Digit part with an optional `0x`/`0X` prefix. -/
def hexBody (l : List Char) : Bool :=
  match l with
  | c0 :: c1 :: r =>
    if c0 = '0' && (c1 = 'x' || c1 = 'X') then hexTail r else digitsU l
  | _ => digitsU l

/-- Drop one leading `+` or `-`. -/
def afterSign (l : List Char) : List Char :=
  match l with
  | c :: r => if c = '+' || c = '-' then r else l
  | [] => []

/-- Does Python's `int(s, 16)` accept the string (i.e. not raise
`ValueError`)? -/
def pyIntHexAccepts (l : List Char) : Bool :=
  hexBody (afterSign (stripList l))

/-! ## JSON values and Python dynamic semantics -/

/-- A parsed JSON value as the endpoint receives it.  Object key order is
insertion order, as in Python dicts.  (Numeric and boolean leaves are not
modelled: no claim exercises them.) -/
inductive JVal where
  | str (s : String)
  | list (l : List JVal)
  | obj (m : List (String × JVal))
  | null
deriving Repr

/-- The Python exceptions the endpoint's handlers distinguish. -/
inductive Exc where
  | keyError
  | valueError
  | attributeError
  | typeError
deriving Repr, DecidableEq

/-- First-match key lookup in an object (Python dict keys are unique). -/
def lookupKey (m : List (String × JVal)) (k : String) : Option JVal :=
  match m with
  | [] => none
  | (k', v) :: rest => if k' = k then some v else lookupKey rest k

/-- Python `v == "N/A"`: only the exact sentinel string compares equal. -/
def isNA : JVal → Bool
  | .str s => s == "N/A"
  | _ => false

/-- Python truthiness of a JSON value. -/
def pyTruthy : JVal → Bool
  | .str s => !(s == "")
  | .list l => !l.isEmpty
  | .obj m => !m.isEmpty
  | .null => false

/-- Exception-propagating bind on `Except Exc`. -/
def ebind (x : Except Exc α) (f : α → Except Exc β) : Except Exc β :=
  match x with
  | .error e => .error e
  | .ok a => f a

/-- Effectful map over a list, stopping at the first exception. -/
def mapE (f : α → Except Exc β) : List α → Except Exc (List β)
  | [] => .ok []
  | a :: as => ebind (f a) fun b => ebind (mapE f as) fun bs => .ok (b :: bs)

/-- Concatenate a list of lists. -/
def concatAll : List (List α) → List α
  | [] => []
  | l :: ls => l ++ concatAll ls

/-- Python `v.get(k, dflt)`: defined on dicts, `AttributeError` on anything
else (including the sentinel string and `None`). -/
def pyGet (v : JVal) (k : String) (dflt : JVal) : Except Exc JVal :=
  match v with
  | .obj m => .ok ((lookupKey m k).getD dflt)
  | _ => .error .attributeError

/-- Python `v.items()`: defined on dicts only. -/
def pyItems (v : JVal) : Except Exc (List (String × JVal)) :=
  match v with
  | .obj m => .ok m
  | _ => .error .attributeError

/-- Require a string (the docx text primitives raise on non-strings). -/
def asStr : JVal → Except Exc String
  | .str s => .ok s
  | _ => .error .typeError

/-- Python `str(v)` as the code's f-strings use it.  Every value the claims
exercise is a string; for the remaining kinds we record a fixed rendering
(`str` never raises) without reproducing the container `repr` in full. -/
def pyStrOf : JVal → String
  | .str s => s
  | .null => "None"
  | .list _ => "[…]"
  | .obj _ => "\x7b…\x7d"

/-- Python `for x in v`: lists yield elements, strings their characters,
dicts their keys; `None` raises `TypeError`. -/
def pySeq : JVal → Except Exc (List JVal)
  | .list l => .ok l
  | .str s => .ok (s.toList.map fun c => .str (String.mk [c]))
  | .obj m => .ok (m.map fun p => .str p.1)
  | .null => .error .typeError

/-! ## The document model -/

/-- Paragraph alignment (only values the code sets). -/
inductive Align where
  | left
  | center
deriving Repr, DecidableEq

/-- A styled text run.  `color` and `hyperlink` stay `none` unless the code
sets them. -/
structure Run where
  text : String
  fontName : Option String
  sizePt : Option Nat
  bold : Bool
  color : Option String
  hyperlink : Option String
deriving Repr, DecidableEq

/-- A paragraph: docx style name, runs, alignment. -/
structure Para where
  style : String
  runs : List Run
  align : Option Align
deriving Repr, DecidableEq

/-- A document block: paragraph, horizontal rule (the `add_line` pict
paragraph, carrying its validated fill color), or the one-row skills table
(the paragraphs added to each of its three cells). -/
inductive Block where
  | para (p : Para)
  | hline (color : String)
  | table (cols : List (List Para))
deriving Repr, DecidableEq

/-- The HTTP outcome: a served document file or a JSON error status. -/
inductive Response where
  | file (blocks : List Block)
  | err (status : Nat)
deriving Repr, DecidableEq

/-- The text of a paragraph (its runs concatenated). -/
def paraText (p : Para) : String := String.join (p.runs.map Run.text)

/-- The body paragraphs of the document, in order.  `add_line` contributes
a normal-style paragraph with one empty run; table-cell paragraphs are not
body paragraphs (python-docx `doc.paragraphs` excludes them). -/
def docParas (bs : List Block) : List Para :=
  concatAll (bs.map fun b =>
    match b with
    | .para p => [p]
    | .hline _ => [⟨"Normal", [⟨"", none, none, false, none, none⟩], none⟩]
    | .table _ => [])

/-- All rendered paragraph texts of a response (cell paragraphs included);
an error response renders nothing. -/
def respTexts : Response → List String
  | .err _ => []
  | .file bs =>
    concatAll (bs.map fun b =>
      match b with
      | .para p => [paraText p]
      | .hline _ => [""]
      | .table cols => (concatAll cols).map paraText)

/-- Is the response a served file? -/
def isFileR : Response → Bool
  | .file _ => true
  | .err _ => false

/-! ## `validate_color` (src/app.py lines 39-60) -/

/-- The color string after `color.strip().lstrip('#')`. -/
def colorCore (s : String) : String := pyLstripHash (pyStrip s)

/-- `validate_color`: normalize a hex color, defaulting to black on any
failure.  Length is checked before the `int(color, 16)` probe; a 3-char
form has every character duplicated. -/
def validate_color (color : JVal) : String :=
  match color with
  | .str s =>
    let c := colorCore s
    if c == "" then "#000000"
    else if !(c.length == 3 || c.length == 6) then "#000000"
    else if pyIntHexAccepts c.toList then
      (if c.length == 3 then "#" ++ String.mk (dupChars c.toList) else "#" ++ c)
    else "#000000"
  | _ => "#000000"

/-! ## Paragraph constructors (the styles each `add_paragraph` site sets) -/

/-- An Arial run of the given point size. -/
def ar (t : String) (n : Nat) (b : Bool) : Run := ⟨t, some "Arial", some n, b, none, none⟩

/-- The name header: Heading 1, Arial 20 bold, centered. -/
def namePara (t : String) : Para := ⟨"Heading 1", [ar t 20 true], some .center⟩

/-- The contact line: Arial 10, centered. -/
def contactPara (t : String) : Para := ⟨"Normal", [ar t 10 false], some .center⟩

/-- Desired role: Arial 14 bold, centered. -/
def drolePara (t : String) : Para := ⟨"Normal", [ar t 14 true], some .center⟩

/-- Tagline: Arial 10, centered. -/
def taglinePara (t : String) : Para := ⟨"Normal", [ar t 10 false], some .center⟩

/-- A level-2 heading restyled to Arial 14 bold. -/
def heading2Para (t : String) : Para := ⟨"Heading 2", [ar t 14 true], none⟩

/-- A work-experience role line: Arial 12 bold. -/
def rolePara (t : String) : Para := ⟨"Normal", [ar t 12 true], none⟩

/-- A plain body paragraph: Arial 10. -/
def plain10Para (t : String) : Para := ⟨"Normal", [ar t 10 false], none⟩

/-- A bulleted body paragraph: List Bullet style, Arial 10. -/
def bulletPara (t : String) : Para := ⟨"List Bullet", [ar t 10 false], none⟩

/-- A bold sub-heading inside work experience: Arial 10 bold. -/
def subheadPara (t : String) : Para := ⟨"Normal", [ar t 10 true], none⟩

/-- A skills-table cell paragraph: Arial 10. -/
def cellPara (t : String) : Para := ⟨"Normal", [ar t 10 false], none⟩

/-! ## The presentation builder (src/app.py lines 62-314) -/

/-- Header name block (lines 90-97). -/
def nameBlocks (name : JVal) : Except Exc (List Block) :=
  if isNA name then .ok []
  else ebind (asStr name) fun t => .ok [Block.para (namePara t)]

/-- The contact token list (lines 100-109): phone, email, website each when
non-sentinel, then `"city, countryCode"` when both location parts are
non-sentinel.  `location.get` raises on a non-dict location. -/
def contactTokens (cd : JVal) : Except Exc (List JVal) :=
  ebind (pyGet cd "phone" (.str "N/A")) fun phone =>
  ebind (pyGet cd "email" (.str "N/A")) fun email =>
  ebind (pyGet cd "website" (.str "N/A")) fun website =>
  ebind (pyGet cd "location" (.obj [])) fun location =>
  ebind (pyGet location "city" (.str "N/A")) fun city =>
  let l1 : List JVal := if isNA phone then [] else [phone]
  let l2 := if isNA email then l1 else l1 ++ [email]
  let l3 := if isNA website then l2 else l2 ++ [website]
  if isNA city then .ok l3
  else
    ebind (pyGet location "countryCode" (.str "N/A")) fun cc =>
    if isNA cc then .ok l3
    else .ok (l3 ++ [.str (pyStrOf city ++ ", " ++ pyStrOf cc)])

/-- The contact paragraph (lines 110-116): the tokens joined with `" | "`
into a single centered Arial 10 run. -/
def contactLineBlocks (toks : List JVal) : Except Exc (List Block) :=
  if toks.isEmpty then .ok []
  else
    ebind (mapE asStr toks) fun ss =>
    .ok [Block.para (contactPara (pyJoin " | " ss))]

/-- Desired role and tagline paragraphs (lines 119-132). -/
def overviewHeadBlocks (ov : JVal) : Except Exc (List Block) :=
  ebind (pyGet ov "desired_role" (.str "N/A")) fun dr =>
  ebind (if isNA dr then .ok [] else ebind (asStr dr) fun t => .ok [Block.para (drolePara t)]) fun drB =>
  ebind (pyGet ov "tagline" (.str "N/A")) fun tg =>
  ebind (if isNA tg then .ok [] else ebind (asStr tg) fun t => .ok [Block.para (taglinePara t)]) fun tgB =>
  .ok (drB ++ tgB)

/-- One line of an additional overview subsection (lines 149-160): bullet
style when `item.startswith('•') or item.startswith('')`, else plain. -/
def extraItem (item : JVal) : Except Exc Block :=
  ebind (asStr item) fun s =>
  .ok (Block.para (if pyStartsWith s "•" || pyStartsWith s "" then bulletPara s else plain10Para s))

/-- One additional overview subsection (lines 139-161): skipped for the
reserved keys and for anything but a truthy list whose first element is
non-sentinel; otherwise a heading followed by its lines. -/
def extraEntry (k : String) (v : JVal) : Except Exc (List Block) :=
  if k == "desired_role" || k == "tagline" then .ok []
  else if !pyTruthy v then .ok []
  else
    match v with
    | .list l =>
      match l with
      | [] => .ok []
      | x :: _ =>
        if isNA x then .ok []
        else ebind (mapE extraItem l) fun bs => .ok (Block.para (heading2Para k) :: bs)
    | _ => .ok []

/-- All additional overview subsections, in the record's own key order. -/
def overviewExtras (items : List (String × JVal)) : Except Exc (List Block) :=
  ebind (mapE (fun p => extraEntry p.1 p.2) items) fun ls => .ok (concatAll ls)

/-- `pos['details'].get('plainText', 'N/A') if 'details' in pos else 'N/A'`
(line 182). -/
def plainTextOf (pos : JVal) : Except Exc JVal :=
  match pos with
  | .obj pm =>
    match lookupKey pm "details" with
    | some dv => pyGet dv "plainText" (.str "N/A")
    | none => .ok (.str "N/A")
  | _ => .error .typeError

/-- Render the plain-text details (lines 183-194): a paragraph per item of
a list, else a single paragraph. -/
def plainBlocks (pt : JVal) : Except Exc (List Block) :=
  if isNA pt then .ok []
  else
    match pt with
    | .list l =>
      ebind (mapE (fun item => ebind (asStr item) fun s => .ok (Block.para (plain10Para s))) l) fun ps =>
      .ok ps
    | _ => ebind (asStr pt) fun s => .ok [Block.para (plain10Para s)]

/-- One named detail subsection of a position (lines 196-210). -/
def subBlocks (k : String) (v : JVal) : Except Exc (List Block) :=
  if k == "plainText" then .ok []
  else if !pyTruthy v then .ok []
  else
    match v with
    | .list l =>
      match l with
      | [] => .ok []
      | x :: _ =>
        if isNA x then .ok []
        else
          ebind (mapE (fun item => ebind (asStr item) fun s => .ok (Block.para (bulletPara s))) l) fun ps =>
          .ok (Block.para (subheadPara k) :: ps)
    | _ => .ok []

/-- One position of an engagement (lines 172-211): the composed bold role
line, then plain-text details, then the named subsections. -/
def positionBlocks (exp pos : JVal) : Except Exc (List Block) :=
  ebind (pyGet pos "jobTitle" (.str "N/A")) fun jt =>
  ebind (pyGet exp "organisation" (.str "N/A")) fun org =>
  ebind (pyGet exp "about_the_organisation" (.str "N/A")) fun abt =>
  ebind (pyGet exp "location" (.str "N/A")) fun loc =>
  ebind (pyGet pos "startDate" (.str "N/A")) fun sd =>
  ebind (pyGet pos "endDate" (.str "N/A")) fun ed =>
  let role := pyStrOf jt ++ " - " ++ pyStrOf org ++ " | " ++ pyStrOf abt ++ ", " ++
    pyStrOf loc ++ " (" ++ pyStrOf sd ++ " – " ++ (if isNA ed then "Present" else pyStrOf ed) ++ ")"
  ebind (plainTextOf pos) fun pt =>
  ebind (plainBlocks pt) fun ptB =>
  ebind (pyGet pos "details" (.obj [])) fun details =>
  ebind (pyItems details) fun subs =>
  ebind (mapE (fun p => subBlocks p.1 p.2) subs) fun subBs =>
  .ok (Block.para (rolePara role) :: ptB ++ concatAll subBs)

/-- One engagement (line 173): every position of `exp.get('position', [])`. -/
def expBlocks (exp : JVal) : Except Exc (List Block) :=
  ebind (pyGet exp "position" (.list [])) fun posv =>
  ebind (pySeq posv) fun poss =>
  ebind (mapE (positionBlocks exp) poss) fun ls => .ok (concatAll ls)

/-- The Career Experience section (lines 163-211). -/
def workBlocks (we : JVal) : Except Exc (List Block) :=
  if !pyTruthy we then .ok []
  else
    ebind (pySeq we) fun exps =>
    ebind (mapE expBlocks exps) fun ls =>
    .ok (Block.para (heading2Para "Career Experience") :: concatAll ls)

/-- The education line (line 223): study type, area, institution and
location, with the score (or nothing) in the parenthesis. -/
def eduText (edu : JVal) : Except Exc String :=
  match edu with
  | .obj m =>
    let g := fun (k : String) => pyStrOf ((lookupKey m k).getD (.str "N/A"))
    let sc := (lookupKey m "score").getD (.str "N/A")
    .ok (g "studyType" ++ " in " ++ g "area" ++ " - " ++ g "institution" ++ ", " ++
      g "location" ++ " (" ++ (if isNA sc then "" else pyStrOf sc) ++ ")")
  | _ => .error .attributeError

/-- The Education section (lines 213-228): a heading, then one Arial 10
paragraph per entry. -/
def educationBlocks (edu : JVal) : Except Exc (List Block) :=
  if !pyTruthy edu then .ok []
  else
    ebind (pySeq edu) fun entries =>
    ebind (mapE (fun e => ebind (eduText e) fun t => .ok (Block.para (plain10Para t))) entries) fun ps =>
    .ok (Block.para (heading2Para "Education") :: ps)

/-- One skills-table cell text (lines 241-243): the slice's `name` fields
joined with newlines. -/
def skillCell (sl : List JVal) : Except Exc String :=
  ebind (mapE (fun s => pyGet s "name" (.str "N/A")) sl) fun names =>
  ebind (mapE asStr names) fun ss =>
  .ok (pyJoin "\n" ss)

/-- The paragraphs of one table cell (lines 251-256): the cell text split
on newlines, keeping lines that are non-blank and not the sentinel. -/
def colParas (txt : String) : List Para :=
  (pySplitC '\n' txt).filterMap fun t =>
    if pyStrip t == "" then none
    else if t == "N/A" then none
    else some (cellPara t)

/-- The Skills section (lines 230-258): heading plus a one-row, three-column
table whose cells hold `skills[:5]`, `skills[5:10]` and `skills[10:]`.
A truthy non-list value raises as Python would when sliced or iterated. -/
def skillsBlocks (skills : JVal) : Except Exc (List Block) :=
  if !pyTruthy skills then .ok []
  else
    match skills with
    | .list l =>
      ebind (skillCell (l.take 5)) fun c0 =>
      ebind (skillCell ((l.drop 5).take 5)) fun c1 =>
      ebind (skillCell (l.drop 10)) fun c2 =>
      .ok [Block.para (heading2Para "Key Skills & Expertise"),
           Block.table [colParas c0, colParas c1, colParas c2]]
    | .str _ => .error .attributeError
    | .obj _ => .error .typeError
    | .null => .ok []

/-- The generic-section names, in the code's fixed enumeration order
(line 261). -/
def sectionNames : List String :=
  ["associations", "publications", "projects", "volunteer", "interests",
   "patents", "awards", "certificates", "languages", "references"]

/-- The rendering condition of line 263: truthy, and either a list whose
first element is non-sentinel or a non-sentinel string. -/
def sectionCond (sd : JVal) : Bool :=
  pyTruthy sd &&
    (match sd with
     | .list l => (match l with | [] => false | x :: _ => !isNA x)
     | .str s => !(s == "N/A")
     | _ => false)

/-- One element of a generic list section (lines 271-285): dict entries
become `"name - summary"` paragraphs guarded by the (dead) strip
comparison against `"N/A - "`; other elements become bullets. -/
def sectionItem (item : JVal) : Except Exc (List Block) :=
  match item with
  | .obj im =>
    let nmv := (lookupKey im "name").getD (.str "N/A")
    let smv := if (lookupKey im "summary").isSome then (lookupKey im "summary").getD (.str "") else JVal.str ""
    let text := pyStrOf nmv ++ " - " ++ pyStrOf smv
    if !(pyStrip text == "N/A - ") then .ok [Block.para (plain10Para text)] else .ok []
  | _ => ebind (asStr item) fun s => .ok [Block.para (bulletPara s)]

/-- The body of a generic section (lines 270-291). -/
def sectionBody (sd : JVal) : Except Exc (List Block) :=
  match sd with
  | .list l => ebind (mapE sectionItem l) fun ls => .ok (concatAll ls)
  | .str s => .ok [Block.para (plain10Para s)]
  | _ => .ok []

/-- One generic section (lines 262-291): capitalized heading plus body when
the condition holds, nothing otherwise. -/
def sectionBlocks (nm : String) (sd : JVal) : Except Exc (List Block) :=
  if sectionCond sd then
    ebind (sectionBody sd) fun body =>
    .ok (Block.para (heading2Para (pyCapitalize nm)) :: body)
  else .ok []

/-- All generic sections, in the fixed order. -/
def genericBlocks (data : JVal) : Except Exc (List Block) :=
  ebind (mapE (fun nm => ebind (pyGet data nm .null) fun sd => sectionBlocks nm sd) sectionNames) fun ls =>
  .ok (concatAll ls)

/-- The horizontal rule `add_line(doc, '100%', '1pt', '#000000', ...)`
inserts (its fill color goes through `validate_color`). -/
def hlineBlock : Block := Block.hline (validate_color (.str "#000000"))

/-- The whole build pass of `generate_cv` (lines 74-302): sections in the
code's order, then one trailing rule appended per level-2 heading found
among all but the last body paragraph (lines 293-296). -/
def buildDoc (data : JVal) : Except Exc (List Block) :=
  ebind (pyGet data "personalInformation" (.obj [])) fun personal_info =>
  ebind (pyGet data "contactDetails" (.obj [])) fun contact_details =>
  ebind (pyGet personal_info "name" (.str "N/A")) fun name =>
  ebind (nameBlocks name) fun nameB =>
  ebind (contactTokens contact_details) fun toks =>
  ebind (contactLineBlocks toks) fun contactB =>
  ebind (pyGet data "overview" (.obj [])) fun overview =>
  ebind (overviewHeadBlocks overview) fun ovHeadB =>
  let hlineB := if !isNA name || !toks.isEmpty then [hlineBlock] else []
  ebind (pyItems overview) fun ovItems =>
  ebind (overviewExtras ovItems) fun extrasB =>
  ebind (pyGet data "workExperience" (.list [])) fun we =>
  ebind (workBlocks we) fun workB =>
  ebind (pyGet data "education" (.list [])) fun edu =>
  ebind (educationBlocks edu) fun eduB =>
  ebind (pyGet data "skills" (.list [])) fun sk =>
  ebind (skillsBlocks sk) fun skB =>
  ebind (genericBlocks data) fun genB =>
  let blocks := nameB ++ contactB ++ ovHeadB ++ hlineB ++ extrasB ++ workB ++ eduB ++ skB ++ genB
  let ps := docParas blocks
  let n := (ps.take (ps.length - 1)).countP (fun p => p.style == "Heading 2")
  .ok (blocks ++ List.replicate n hlineBlock)

/-- The endpoint's exception-to-status mapping (lines 306-314): `KeyError`
and `ValueError` become 400, everything else 500. -/
def statusOf : Exc → Nat
  | .keyError => 400
  | .valueError => 400
  | _ => 500

/-- The `/generate_cv` endpoint on an already-parsed JSON body. -/
def generate_cv (data : JVal) : Response :=
  match buildDoc data with
  | .ok bs => .file bs
  | .error e => .err (statusOf e)

/-! ## Claim-side definitions (inputs and spec-worded renderings) -/

/-- The six top-level fields §4.1 declares required. -/
def requiredKeys : List String :=
  ["personalInformation", "contactDetails", "overview", "workExperience", "education", "skills"]

/-- A record carrying all six required fields with empty contents. -/
def baseFields : List (String × JVal) :=
  [("personalInformation", .obj []), ("contactDetails", .obj []), ("overview", .obj []),
   ("workExperience", .list []), ("education", .list []), ("skills", .list [])]

/-- The base record with one top-level field removed. -/
def inputMissing (k : String) : JVal := .obj (baseFields.filter (fun p => p.1 ≠ k))

/-- A contact-details record with all five leaf fields. -/
def mkContact (ph em wb ct cc : String) : JVal :=
  .obj [("phone", .str ph), ("email", .str em), ("website", .str wb),
        ("location", .obj [("city", .str ct), ("countryCode", .str cc)])]

/-- The contact tokens the code keeps: each of phone, email, website when
non-sentinel, then the `"city, countryCode"` pair when both halves are
non-sentinel. -/
def contactTokSpec (ph em wb ct cc : String) : List String :=
  (if ph == "N/A" then [] else [ph]) ++ (if em == "N/A" then [] else [em]) ++
  (if wb == "N/A" then [] else [wb]) ++
  (if ct == "N/A" || cc == "N/A" then [] else [ct ++ ", " ++ cc])

/-- A skills entry `\x7b"name": nm\x7d`. -/
def mkSkill (nm : String) : JVal := .obj [("name", .str nm)]

/-- The claimed skills split points: column sizes `⌊n/3⌋`, `⌊2n/3⌋ - ⌊n/3⌋`
and the remainder. -/
def claimSkillSplit (n : Nat) : Nat × Nat × Nat :=
  (n / 3, 2 * n / 3 - n / 3, n - 2 * n / 3)

/-- The per-column entry counts of the first table of a block list. -/
def colCounts : List Block → List Nat
  | [] => []
  | .table cols :: _ => cols.map List.length
  | _ :: rest => colCounts rest

/-- Column counts of a build result (an error renders nothing). -/
def colCountsE : Except Exc (List Block) → List Nat
  | .ok bs => colCounts bs
  | .error _ => []

/-- An education entry with all seven leaf fields. -/
structure Edu where
  studyType : String
  area : String
  institution : String
  location : String
  startDate : String
  endDate : String
  score : String
deriving Repr, DecidableEq

/-- The JSON form of an education entry. -/
def mkEduJ (e : Edu) : JVal :=
  .obj [("studyType", .str e.studyType), ("area", .str e.area),
        ("institution", .str e.institution), ("location", .str e.location),
        ("startDate", .str e.startDate), ("endDate", .str e.endDate),
        ("score", .str e.score)]

/-- The education line the code actually composes: the parenthesis holds
the score (or nothing), never the dates. -/
def eduLineOf (e : Edu) : String :=
  e.studyType ++ " in " ++ e.area ++ " - " ++ e.institution ++ ", " ++ e.location ++
    " (" ++ (if e.score == "N/A" then "" else e.score) ++ ")"

/-- The education line as the claim words it: dates in the parenthesis with
`endDate` falling back to `Present`. -/
def claimEduLine (e : Edu) : String :=
  e.studyType ++ " in " ++ e.area ++ " - " ++ e.institution ++ ", " ++ e.location ++
    " (" ++ e.startDate ++ " – " ++ (if e.endDate == "N/A" then "Present" else e.endDate) ++ ")"

/-- The amended rendering of one additional overview subsection: a bold
heading then every line as a bullet (the plain branch of the code is dead
because `startswith('')` is always true). -/
def extraRender (p : String × JVal) : List Block :=
  match p.2 with
  | .list l =>
    if p.1 == "desired_role" || p.1 == "tagline" then []
    else
      match l with
      | [] => []
      | x :: _ =>
        if isNA x then []
        else Block.para (heading2Para p.1) ::
          l.map (fun item => Block.para (bulletPara (pyStrOf item)))
  | _ => []

/-- Shape hypothesis for overview subsections: list values hold strings
only (so the docx text primitives cannot raise). -/
def strListShaped (v : JVal) : Prop :=
  ∀ l, v = JVal.list l → ∀ x ∈ l, ∃ s, x = JVal.str s

/-- A fully populated education entry used to compare the two line forms. -/
def eduCex : Edu := ⟨"BSc", "Computer Science", "MIT", "Cambridge", "2010", "2014", "3.9"⟩

/-! ## General lemmas about the Python-semantics helpers -/

@[simp]
theorem ebind_ok (a : α) (f : α → Except Exc β) : ebind (.ok a) f = f a := rfl

@[simp]
theorem ebind_err (e : Exc) (f : α → Except Exc β) : ebind (.error e) f = .error e := rfl

theorem mapE_ok_of (f : α → Except Exc β) (g : α → β) (l : List α)
    (h : ∀ x ∈ l, f x = .ok (g x)) : mapE f l = .ok (l.map g) := by
  induction l with
  | nil => rfl
  | cons a as ih =>
    have ha := h a (List.mem_cons_self a as)
    have ih' := ih (fun x hx => h x (List.mem_cons_of_mem a hx))
    simp [mapE, ha, ih']

theorem mapE_map (f : β → Except Exc γ) (g : α → β) (l : List α) :
    mapE f (l.map g) = mapE (fun a => f (g a)) l := by
  induction l with
  | nil => rfl
  | cons a as ih => simp [mapE, ih]

theorem splitCh_ne_nil (c : Char) (l : List Char) : splitCh c l ≠ [] := by
  cases l with
  | nil => simp [splitCh]
  | cons a as =>
    simp only [splitCh]
    split <;> simp

theorem splitCh_cons_sep (c : Char) (as : List Char) :
    splitCh c (c :: as) = [] :: splitCh c as := by
  simp [splitCh]

theorem splitCh_cons_ne {a c : Char} (as : List Char) (h : a ≠ c) :
    splitCh c (a :: as) = (a :: (splitCh c as).headD []) :: (splitCh c as).tail := by
  simp [splitCh, h]

theorem splitCh_append_of_not_mem (c : Char) (x s : List Char) (hx : c ∉ x) :
    splitCh c (x ++ s) = (x ++ (splitCh c s).headD []) :: (splitCh c s).tail := by
  induction x with
  | nil =>
    cases hs : splitCh c s with
    | nil => exact absurd hs (splitCh_ne_nil c s)
    | cons h t => simp [hs]
  | cons a x ih =>
    have hac : a ≠ c := by
      intro h
      exact hx (h ▸ List.mem_cons_self a x)
    have hx' : c ∉ x := fun hm => hx (List.mem_cons_of_mem a hm)
    rw [List.cons_append, splitCh_cons_ne (x ++ s) hac, ih hx']
    simp

theorem splitCh_of_not_mem (c : Char) (x : List Char) (hx : c ∉ x) :
    splitCh c x = [x] := by
  have h := splitCh_append_of_not_mem c x [] hx
  simpa [splitCh] using h

theorem splitCh_joinParts (c : Char) (parts : List (List Char)) (hne : parts ≠ [])
    (h : ∀ p ∈ parts, c ∉ p) : splitCh c (joinParts [c] parts) = parts := by
  induction parts with
  | nil => exact absurd rfl hne
  | cons x rest ih =>
    cases rest with
    | nil =>
      rw [joinParts, splitCh_of_not_mem c x (h x (List.mem_cons_self x []))]
    | cons y rest2 =>
      have hx := h x (List.mem_cons_self x (y :: rest2))
      rw [joinParts]
      have : x ++ [c] ++ joinParts [c] (y :: rest2) = x ++ (c :: joinParts [c] (y :: rest2)) := by
        simp
      rw [this, splitCh_append_of_not_mem c x _ hx, splitCh_cons_sep,
        ih (by simp) (fun p hp => h p (List.mem_cons_of_mem x hp))]
      simp

theorem pySplitC_pyJoin (c : Char) (sep : String) (hsep : sep.toList = [c])
    (l : List String) (hne : l ≠ []) (h : ∀ s ∈ l, c ∉ s.toList) :
    pySplitC c (pyJoin sep l) = l := by
  unfold pySplitC pyJoin
  have hdata : (String.mk (joinParts sep.toList (l.map String.toList))).toList
      = joinParts sep.toList (l.map String.toList) := rfl
  rw [hdata, hsep, splitCh_joinParts c (l.map String.toList)
    (by simpa using hne)
    (by
      intro p hp
      rcases List.mem_map.mp hp with ⟨s, hs, rfl⟩
      exact h s hs)]
  have hmk : (fun s : String => String.mk s.toList) = id := funext (fun s => rfl)
  simp only [List.map_map]
  have : String.mk ∘ String.toList = id := hmk
  rw [this, List.map_id]

theorem joinParts_length (sep : List Char) (l : List (List Char)) :
    (joinParts sep l).length = (l.map List.length).sum + sep.length * (l.length - 1) := by
  induction l with
  | nil => simp [joinParts]
  | cons x rest ih =>
    cases rest with
    | nil => simp [joinParts]
    | cons y r2 =>
      rw [joinParts]
      simp only [List.length_append, ih, List.map_cons, List.sum_cons, List.length_cons,
        Nat.add_sub_cancel]
      ring

theorem pyJoin_length (sep : String) (l : List String) :
    (pyJoin sep l).length = (l.map String.length).sum + sep.length * (l.length - 1) := by
  have h1 : (pyJoin sep l).length = (joinParts sep.toList (l.map String.toList)).length := rfl
  rw [h1, joinParts_length]
  have h2 : (l.map String.toList).map List.length = l.map String.length := by
    simp [List.map_map]
  have h3 : (l.map String.toList).length = l.length := by simp
  rw [h2, h3]
  rfl

theorem filterMap_eq_map_of (f : α → Option β) (g : α → β) (l : List α)
    (h : ∀ x ∈ l, f x = some (g x)) : l.filterMap f = l.map g := by
  induction l with
  | nil => rfl
  | cons a as ih =>
    rw [List.filterMap_cons, h a (List.mem_cons_self a as),
      ih (fun x hx => h x (List.mem_cons_of_mem a hx)), List.map_cons]

/-! ## Lemmas about the base-16 acceptance grammar -/

theorem hex_ne_of {c : Char} (h : isHexDigit c = true) (d : Char)
    (hd : isHexDigit d = false) : c ≠ d := by
  intro he
  rw [he, hd] at h
  cases h

theorem hex_not_space {c : Char} (h : isHexDigit c = true) : isPySpace c = false := by
  cases hps : isPySpace c
  · rfl
  · exfalso
    simp only [isPySpace, Bool.or_eq_true, decide_eq_true_eq] at hps
    rcases hps with ((((h1 | h1) | h1) | h1) | h1) | h1 <;>
      (subst h1; exact absurd h (by decide))

theorem digitsTail_of_all_hex (l : List Char)
    (h : ∀ c ∈ l, isHexDigit c = true) : digitsTail l = true := by
  induction l with
  | nil => rfl
  | cons c r ih =>
    have hc := h c (List.mem_cons_self c r)
    have hu : c ≠ '_' := hex_ne_of hc '_' (by decide)
    rw [digitsTail.eq_def]
    simp only [hu, if_false]
    rw [hc, ih (fun d hd => h d (List.mem_cons_of_mem c hd))]
    rfl

theorem digitsU_of_all_hex (l : List Char) (hne : l ≠ [])
    (h : ∀ c ∈ l, isHexDigit c = true) : digitsU l = true := by
  cases l with
  | nil => exact absurd rfl hne
  | cons c r =>
    rw [digitsU, h c (List.mem_cons_self c r),
      digitsTail_of_all_hex r (fun d hd => h d (List.mem_cons_of_mem c hd))]
    rfl

theorem dropWhile_of_head_not (p : α → Bool) (l : List α)
    (h : ∀ a ∈ l, p a = false) : l.dropWhile p = l := by
  cases l with
  | nil => rfl
  | cons a as =>
    rw [List.dropWhile_cons, if_neg]
    simp [h a (List.mem_cons_self a as)]

theorem stripList_of_all_hex (l : List Char)
    (h : ∀ c ∈ l, isHexDigit c = true) : stripList l = l := by
  unfold stripList
  rw [dropWhile_of_head_not isPySpace l (fun a ha => hex_not_space (h a ha))]
  rw [dropWhile_of_head_not isPySpace l.reverse
    (fun a ha => hex_not_space (h a (List.mem_reverse.mp ha)))]
  exact List.reverse_reverse l

theorem pyIntHexAccepts_of_all_hex (l : List Char) (hne : l ≠ [])
    (h : ∀ c ∈ l, isHexDigit c = true) : pyIntHexAccepts l = true := by
  unfold pyIntHexAccepts
  rw [stripList_of_all_hex l h]
  cases l with
  | nil => exact absurd rfl hne
  | cons a as =>
    have ha := h a (List.mem_cons_self a as)
    have hap : ¬((a = '+' || a = '-') = true) := by
      simp only [Bool.or_eq_true, decide_eq_true_eq]
      push_neg
      exact ⟨hex_ne_of ha '+' (by decide), hex_ne_of ha '-' (by decide)⟩
    rw [afterSign, if_neg hap]
    cases as with
    | nil =>
      exact digitsU_of_all_hex [a] (by simp) h
    | cons b r =>
      have hb := h b (List.mem_cons_of_mem a (List.mem_cons_self b r))
      have hbx : ¬((a = '0' && (b = 'x' || b = 'X')) = true) := by
        simp only [Bool.and_eq_true, Bool.or_eq_true, decide_eq_true_eq]
        rintro ⟨-, hx | hx⟩
        · exact hex_ne_of hb 'x' (by decide) hx
        · exact hex_ne_of hb 'X' (by decide) hx
      rw [hexBody, if_neg hbx]
      exact digitsU_of_all_hex (a :: b :: r) (by simp) h

/-! ## Claim C7: color normalization -/

/-- C7 (counterexample): `"+ff"` is not hexadecimal-digit content, yet
`validate_color` does not normalize it to black: `int(color, 16)` accepts
the sign, so the 3-character form is passed to per-character duplication
and `"#++ffff"` is returned. -/
theorem validate_color_cex :
    validate_color (.str "+ff") = "#++ffff"
    ∧ ("+ff".toList.all isHexDigit) = false := by
  exact ⟨by decide, by decide⟩

/-- C7 (amended): after stripping whitespace and leading `#`, a non-string,
an empty or wrong-length form, or a form rejected by Python's base-16
parser yields the default black; an accepted 3-character form has every
character duplicated and an accepted 6-character hex form passes through.
The parser, however, also accepts sign/`0x`/underscore forms, which are
not normalized to black (see the counterexample). -/
theorem validate_color_amended :
    (∀ v : JVal, (∀ s, v ≠ JVal.str s) → validate_color v = "#000000")
    ∧ (∀ s : String, (colorCore s).length ≠ 3 → (colorCore s).length ≠ 6 →
        validate_color (JVal.str s) = "#000000")
    ∧ (∀ s : String, pyIntHexAccepts (colorCore s).toList = false →
        validate_color (JVal.str s) = "#000000")
    ∧ (∀ s : String, (colorCore s).toList.all isHexDigit = true → (colorCore s).length = 3 →
        validate_color (JVal.str s) = "#" ++ String.mk (dupChars (colorCore s).toList))
    ∧ (∀ s : String, (colorCore s).toList.all isHexDigit = true → (colorCore s).length = 6 →
        validate_color (JVal.str s) = "#" ++ colorCore s) := by
  refine ⟨?_, ?_, ?_, ?_, ?_⟩
  · intro v hv
    cases v with
    | str s => exact absurd rfl (hv s)
    | list l => rfl
    | obj m => rfl
    | null => rfl
  · intro s h3 h6
    simp only [validate_color]
    by_cases hce : colorCore s = ""
    · simp [hce]
    · simp [hce, h3, h6]
  · intro s hrej
    have hrej' : pyIntHexAccepts (colorCore s).data = false := hrej
    simp only [validate_color]
    by_cases hce : colorCore s = ""
    · simp [hce]
    · by_cases h3 : (colorCore s).length = 3
      · simp [hce, h3, hrej']
      · by_cases h6 : (colorCore s).length = 6
        · simp [hce, h3, h6, hrej']
        · simp [hce, h3, h6]
  · intro s hall h3
    have hne : colorCore s ≠ "" := by
      intro h
      rw [h] at h3
      exact absurd h3 (by decide)
    have hlist : (colorCore s).toList ≠ [] := by
      intro h
      have : (colorCore s).length = 0 := by
        have : (colorCore s).toList.length = 0 := by rw [h]; rfl
        simpa using this
      omega
    have hacc : pyIntHexAccepts (colorCore s).data = true :=
      pyIntHexAccepts_of_all_hex (colorCore s).toList hlist
        (fun c hc => (List.all_eq_true.mp hall) c hc)
    simp [validate_color, hne, h3, hacc]
  · intro s hall h6
    have hlist : (colorCore s).toList ≠ [] := by
      intro h
      have : (colorCore s).length = 0 := by
        have : (colorCore s).toList.length = 0 := by rw [h]; rfl
        simpa using this
      omega
    have hne : colorCore s ≠ "" := by
      intro h
      rw [h] at h6
      exact absurd h6 (by decide)
    have hacc : pyIntHexAccepts (colorCore s).data = true :=
      pyIntHexAccepts_of_all_hex (colorCore s).toList hlist
        (fun c hc => (List.all_eq_true.mp hall) c hc)
    simp [validate_color, hne, h6, hacc]

/-- C7 (witness): the amended theorem applied to a non-string, a
wrong-length string, a rejected 3-character form, a valid 3-digit form
(duplicated per channel) and a valid 6-digit form. -/
theorem validate_color_amended_witness :
    validate_color JVal.null = "#000000"
    ∧ validate_color (JVal.str "abcd") = "#000000"
    ∧ validate_color (JVal.str "ggg") = "#000000"
    ∧ validate_color (JVal.str "a1F") = "#" ++ String.mk (dupChars (colorCore "a1F").toList)
    ∧ validate_color (JVal.str "a1B2c3") = "#" ++ colorCore "a1B2c3" :=
  ⟨validate_color_amended.1 JVal.null (fun s h => nomatch h),
   validate_color_amended.2.1 "abcd" (by decide) (by decide),
   validate_color_amended.2.2.1 "ggg" (by decide),
   validate_color_amended.2.2.2.1 "a1F" (by decide) (by decide),
   validate_color_amended.2.2.2.2 "a1B2c3" (by decide) (by decide)⟩

/-! ## Claim C9: first-element-sentinel shortcut for list sections -/

/-- C9: a generic list section whose first element is the sentinel is fully
omitted — no heading, no body — whatever the section is called and whatever
the later elements are. -/
theorem section_head_sentinel_omitted (nm : String) (rest : List JVal) :
    sectionBlocks nm (.list (.str "N/A" :: rest)) = .ok [] := by
  simp [sectionBlocks, sectionCond, pyTruthy, isNA]

/-! ## Claims C8 and C5: the contact line -/

theorem pyJoin_pair (sep a b : String) : pyJoin sep [a, b] = a ++ sep ++ b := by
  apply String.ext
  show joinParts sep.toList [a.toList, b.toList] = (a ++ sep ++ b).data
  rw [joinParts, joinParts]
  simp [String.data_append, String.toList]

theorem contactLineBlocks_strs (ss : List String) :
    contactLineBlocks (ss.map JVal.str)
      = .ok (if ss = [] then []
             else [Block.para (contactPara (pyJoin " | " ss))]) := by
  unfold contactLineBlocks
  rw [mapE_map, mapE_ok_of (fun s => asStr (JVal.str s)) id ss (fun x hx => rfl)]
  cases ss with
  | nil => simp
  | cons a as => simp

/-- C8: the contact line is the `" | "`-join of exactly the non-sentinel
parts — sentinel fields contribute no token, the location pair only
contributes when both halves are non-sentinel — and the joined line's
length accounts for exactly `count - 1` three-character separators. -/
theorem contact_tokens_exact (ph em wb ct cc : String) :
    contactTokens (mkContact ph em wb ct cc)
      = .ok ((contactTokSpec ph em wb ct cc).map JVal.str)
    ∧ contactLineBlocks ((contactTokSpec ph em wb ct cc).map JVal.str)
      = .ok (if contactTokSpec ph em wb ct cc = [] then []
             else [Block.para (contactPara (pyJoin " | " (contactTokSpec ph em wb ct cc)))])
    ∧ (pyJoin " | " (contactTokSpec ph em wb ct cc)).length
      = ((contactTokSpec ph em wb ct cc).map String.length).sum
        + 3 * ((contactTokSpec ph em wb ct cc).length - 1) := by
  refine ⟨?_, contactLineBlocks_strs _, ?_⟩
  · unfold contactTokens mkContact
    simp only [pyGet, lookupKey]
    by_cases hph : ph = "N/A" <;> by_cases hem : em = "N/A" <;> by_cases hwb : wb = "N/A" <;>
      by_cases hct : ct = "N/A" <;> by_cases hcc : cc = "N/A" <;>
      simp [contactTokSpec, isNA, pyStrOf, lookupKey, hph, hem, hwb, hct, hcc]
  · have h := pyJoin_length " | " (contactTokSpec ph em wb ct cc)
    simpa using h

/-- C5 (counterexample): with a non-sentinel email and website, the contact
line is a single plain Arial 10 run — no `mailto:` target, no hyperlink at
all, and no color set — contradicting the claimed clickable colored
hyperlink runs. -/
theorem contact_no_hyperlink_cex :
    contactTokens (.obj [("email", JVal.str "jane@ex.org"), ("website", JVal.str "ex.org")])
      = .ok [JVal.str "jane@ex.org", JVal.str "ex.org"]
    ∧ contactLineBlocks [JVal.str "jane@ex.org", JVal.str "ex.org"]
      = .ok [Block.para ⟨"Normal",
          [⟨"jane@ex.org | ex.org", some "Arial", some 10, false, none, none⟩],
          some Align.center⟩]
    ∧ (⟨"jane@ex.org | ex.org", some "Arial", some 10, false, none, none⟩ : Run).hyperlink
        = none := by
  exact ⟨rfl, rfl, rfl⟩

/-- C5 (amended): a non-sentinel email and website are joined into the
contact line as plain text — one run, default color, no hyperlink —
styled exactly like every other contact token. -/
theorem contact_email_website_plain (em wb : String)
    (he : em ≠ "N/A") (hw : wb ≠ "N/A") :
    contactTokens (.obj [("email", JVal.str em), ("website", JVal.str wb)])
      = .ok [JVal.str em, JVal.str wb]
    ∧ contactLineBlocks [JVal.str em, JVal.str wb]
      = .ok [Block.para ⟨"Normal",
          [⟨em ++ " | " ++ wb, some "Arial", some 10, false, none, none⟩],
          some Align.center⟩] := by
  constructor
  · simp [contactTokens, pyGet, lookupKey, isNA, he, hw]
  · have hpair := pyJoin_pair " | " em wb
    simp [contactLineBlocks, mapE, asStr, hpair, contactPara, ar]

/-- C5 (witness): the amended theorem at a concrete email and website. -/
theorem contact_email_website_plain_witness :
    ("jane@ex.org" : String) ≠ "N/A" ∧ ("ex.org" : String) ≠ "N/A"
    ∧ (contactTokens (.obj [("email", JVal.str "jane@ex.org"), ("website", JVal.str "ex.org")])
        = .ok [JVal.str "jane@ex.org", JVal.str "ex.org"]
      ∧ contactLineBlocks [JVal.str "jane@ex.org", JVal.str "ex.org"]
        = .ok [Block.para ⟨"Normal",
            [⟨"jane@ex.org" ++ " | " ++ "ex.org", some "Arial", some 10, false, none, none⟩],
            some Align.center⟩]) :=
  ⟨by decide, by decide,
   contact_email_website_plain "jane@ex.org" "ex.org" (by decide) (by decide)⟩

/-! ## Claim C2: the skills table partition -/

theorem skillCell_mk (sl : List String) :
    skillCell (sl.map mkSkill) = .ok (pyJoin "\n" sl) := by
  unfold skillCell
  rw [mapE_map,
    mapE_ok_of (fun nm => pyGet (mkSkill nm) "name" (.str "N/A")) JVal.str sl
      (fun x hx => by simp [pyGet, mkSkill, lookupKey])]
  rw [ebind_ok, mapE_map,
    mapE_ok_of (fun s => asStr (JVal.str s)) id sl (fun x hx => rfl)]
  simp

theorem colParas_join (names : List String)
    (h : ∀ nm ∈ names, pyStrip nm ≠ "" ∧ nm ≠ "N/A" ∧ '\n' ∉ nm.toList) :
    colParas (pyJoin "\n" names) = names.map cellPara := by
  cases hn : names with
  | nil => rfl
  | cons a rest =>
    subst hn
    unfold colParas
    rw [pySplitC_pyJoin '\n' "\n" (by decide) (a :: rest) (by simp)
      (fun s hs => (h s hs).2.2)]
    apply filterMap_eq_map_of
    intro t ht
    obtain ⟨h1, h2, -⟩ := h t ht
    simp [h1, h2]

/-- C2 (counterexample): for the three-skill list `A, B, C` the code puts
all three entries in the first column and none in the others — the columns
are `skills[:5]`, `skills[5:10]`, `skills[10:]`, not splits at `⌊n/3⌋` and
`⌊2n/3⌋`, which for n = 3 would give one entry per column. -/
theorem skills_split_cex :
    colCountsE (skillsBlocks (.list (["A", "B", "C"].map mkSkill))) = [3, 0, 0]
    ∧ claimSkillSplit 3 = (1, 1, 1)
    ∧ ([3, 0, 0] : List Nat) ≠ [1, 1, 1] := by
  exact ⟨by decide, by decide, by decide⟩

/-- C2 (amended): the builder splits the skill names at indices 5 and 10
(columns `skills[:5]`, `skills[5:10]`, `skills[10:]`), renders them as a
three-column table preserving the original order within each column, and —
for names that are non-blank, non-sentinel and newline-free — the three
column entry counts sum to n. -/
theorem skills_fixed_split (names : List String)
    (h : ∀ nm ∈ names, pyStrip nm ≠ "" ∧ nm ≠ "N/A" ∧ '\n' ∉ nm.toList) :
    skillsBlocks (.list (names.map mkSkill))
      = .ok (if names = [] then []
             else [Block.para (heading2Para "Key Skills & Expertise"),
                   Block.table [(names.take 5).map cellPara,
                                ((names.drop 5).take 5).map cellPara,
                                (names.drop 10).map cellPara]])
    ∧ (names.take 5).length + ((names.drop 5).take 5).length + (names.drop 10).length
      = names.length := by
  constructor
  · cases hn : names with
    | nil => rfl
    | cons a rest =>
      have hne : names ≠ [] := by rw [hn]; simp
      rw [← hn]
      unfold skillsBlocks
      have htr : pyTruthy (.list (names.map mkSkill)) = true := by
        rw [hn]; rfl
      rw [htr]
      have e0 : (names.map mkSkill).take 5 = (names.take 5).map mkSkill :=
        (List.map_take mkSkill names 5).symm
      have e1 : ((names.map mkSkill).drop 5).take 5 = ((names.drop 5).take 5).map mkSkill := by
        rw [← List.map_drop, ← List.map_take]
      have e2 : (names.map mkSkill).drop 10 = (names.drop 10).map mkSkill :=
        (List.map_drop mkSkill names 10).symm
      simp only [e0, e1, e2, skillCell_mk, ebind_ok]
      rw [colParas_join (names.take 5) (fun nm hnm => h nm (List.take_subset 5 names hnm)),
        colParas_join ((names.drop 5).take 5)
          (fun nm hnm => h nm (List.drop_subset 5 names (List.take_subset 5 (names.drop 5) hnm))),
        colParas_join (names.drop 10) (fun nm hnm => h nm (List.drop_subset 10 names hnm))]
      rw [if_neg hne]
      simp
  · simp only [List.length_take, List.length_drop]
    omega

/-- C2 (witness): the amended theorem at a concrete two-skill list. -/
theorem skills_fixed_split_witness :
    (∀ nm ∈ (["Python", "SQL"] : List String),
      pyStrip nm ≠ "" ∧ nm ≠ "N/A" ∧ '\n' ∉ nm.toList)
    ∧ (skillsBlocks (.list ((["Python", "SQL"] : List String).map mkSkill))
        = .ok (if (["Python", "SQL"] : List String) = [] then []
               else [Block.para (heading2Para "Key Skills & Expertise"),
                     Block.table [((["Python", "SQL"] : List String).take 5).map cellPara,
                                  (((["Python", "SQL"] : List String).drop 5).take 5).map cellPara,
                                  ((["Python", "SQL"] : List String).drop 10).map cellPara]])
      ∧ ((["Python", "SQL"] : List String).take 5).length
          + (((["Python", "SQL"] : List String).drop 5).take 5).length
          + ((["Python", "SQL"] : List String).drop 10).length
        = (["Python", "SQL"] : List String).length) :=
  ⟨by decide, skills_fixed_split ["Python", "SQL"] (by decide)⟩

/-! ## Claim C4: the education line -/

theorem eduText_mk (e : Edu) : eduText (mkEduJ e) = .ok (eduLineOf e) := by
  simp [eduText, mkEduJ, lookupKey, isNA, pyStrOf, eduLineOf]

/-- C4 (counterexample): for a fully populated entry the code renders a
single line whose parenthesis holds the score — the dates are never
rendered — and no separate score line exists even though the score is
non-sentinel, contradicting the claimed
`"{studyType} in {area} - {institution}, {location} ({startDate} – {endDate})"`
line plus score line. -/
theorem education_line_cex :
    educationBlocks (.list [mkEduJ eduCex])
      = .ok [Block.para (heading2Para "Education"),
             Block.para (plain10Para "BSc in Computer Science - MIT, Cambridge (3.9)")]
    ∧ claimEduLine eduCex = "BSc in Computer Science - MIT, Cambridge (2010 – 2014)"
    ∧ ("BSc in Computer Science - MIT, Cambridge (3.9)" : String) ≠ claimEduLine eduCex := by
  exact ⟨rfl, by decide, by decide⟩

/-- C4 (amended): for every education entry the builder renders exactly one
line composed as
`"{studyType} in {area} - {institution}, {location} ({score-or-empty})"` —
the start and end dates are not rendered and no separate score line is ever
emitted, whether or not the score is sentinel. -/
theorem education_one_line (es : List Edu) :
    educationBlocks (.list (es.map mkEduJ))
      = .ok (if es = [] then []
             else Block.para (heading2Para "Education") ::
               es.map (fun e => Block.para (plain10Para (eduLineOf e)))) := by
  cases hes : es with
  | nil => rfl
  | cons e rest =>
    subst hes
    unfold educationBlocks
    have htr : pyTruthy (.list ((e :: rest).map mkEduJ)) = true := rfl
    rw [htr]
    simp only [Bool.not_true, Bool.false_eq_true, if_false, pySeq, ebind_ok]
    rw [mapE_map,
      mapE_ok_of (fun x => ebind (eduText (mkEduJ x)) fun t => .ok (Block.para (plain10Para t)))
        (fun x => Block.para (plain10Para (eduLineOf x))) (e :: rest)
        (fun x hx => by simp [eduText_mk])]
    simp

/-! ## Claim C6: additional overview subsections -/

theorem extraItem_str (s : String) :
    extraItem (.str s) = .ok (Block.para (bulletPara s)) := by
  have hstart : pyStartsWith s "" = true := rfl
  simp [extraItem, asStr, hstart]

theorem extraEntry_spec (k : String) (v : JVal) (hv : strListShaped v) :
    extraEntry k v = .ok (extraRender (k, v)) := by
  unfold extraEntry extraRender
  by_cases hk : (k == "desired_role" || k == "tagline") = true
  · cases v <;> simp [hk]
  · have hk' : (k == "desired_role" || k == "tagline") = false := by
      revert hk
      cases (k == "desired_role" || k == "tagline") <;> simp
    cases v with
    | str s =>
      cases htr : pyTruthy (.str s) <;> simp [hk', htr]
    | null => simp [hk', pyTruthy]
    | obj m =>
      cases htr : pyTruthy (.obj m) <;> simp [hk', htr]
    | list l =>
      cases l with
      | nil => simp [hk', pyTruthy]
      | cons x xs =>
        have htr : pyTruthy (.list (x :: xs)) = true := rfl
        simp only [hk', htr, Bool.false_eq_true, if_false, Bool.not_true]
        by_cases hna : isNA x = true
        · simp [hna]
        · have hna' : isNA x = false := by
            revert hna
            cases isNA x <;> simp
          simp only [hna', Bool.false_eq_true, if_false]
          rw [mapE_ok_of extraItem (fun item => Block.para (bulletPara (pyStrOf item))) (x :: xs)
            (fun item hitem => by
              obtain ⟨s, rfl⟩ := hv (x :: xs) rfl item hitem
              simp [extraItem_str, pyStrOf])]
          simp

/-- C6 (counterexample): an additional overview subsection whose label
(`"Notes"`) matches no highlights-style key still renders its line with the
`List Bullet` style, not as a plain paragraph, because the per-item test
`item.startswith('•') or item.startswith('')` is always true. -/
theorem overview_plain_label_bulleted_cex :
    overviewExtras [("Notes", JVal.list [JVal.str "hello"])]
      = .ok [Block.para (heading2Para "Notes"), Block.para (bulletPara "hello")]
    ∧ (bulletPara "hello").style = "List Bullet"
    ∧ (bulletPara "hello").style ≠ "Normal" := by
  exact ⟨rfl, rfl, by decide⟩

/-- C6 (amended): each additional overview subsection (list-valued, truthy,
first element non-sentinel, label outside the reserved pair) emits a bold
level-2 heading followed by every one of its lines as a bulleted list item,
regardless of the label; the plain-paragraph branch is unreachable since
the prefix test checks `startswith('')`.  Subsections are emitted in the
record's own key order. -/
theorem overview_extras_bulleted (ov : List (String × JVal))
    (h : ∀ p ∈ ov, strListShaped p.2) :
    overviewExtras ov = .ok (concatAll (ov.map extraRender)) := by
  unfold overviewExtras
  rw [mapE_ok_of (fun p => extraEntry p.1 p.2) extraRender ov
    (fun p hp => extraEntry_spec p.1 p.2 (h p hp))]
  rfl

/-- C6 (witness): the amended theorem applied to a record holding one
highlights-style subsection and one plainly labelled subsection. -/
theorem overview_extras_bulleted_witness :
    (∀ p ∈ [("Career Highlights", JVal.list [JVal.str "Led X"]),
            ("Notes", JVal.list [JVal.str "hello"])], strListShaped p.2)
    ∧ overviewExtras [("Career Highlights", JVal.list [JVal.str "Led X"]),
                      ("Notes", JVal.list [JVal.str "hello"])]
      = .ok (concatAll ([("Career Highlights", JVal.list [JVal.str "Led X"]),
                         ("Notes", JVal.list [JVal.str "hello"])].map extraRender)) := by
  have hshape : ∀ p ∈ [("Career Highlights", JVal.list [JVal.str "Led X"]),
      ("Notes", JVal.list [JVal.str "hello"])], strListShaped p.2 := by
    intro p hp
    simp only [List.mem_cons, List.mem_singleton] at hp
    rcases hp with rfl | rfl | hcontra
    · intro l hl
      injection hl with h
      subst h
      intro x hx
      simp only [List.mem_singleton] at hx
      subst hx
      exact ⟨"Led X", rfl⟩
    · intro l hl
      injection hl with h
      subst h
      intro x hx
      simp only [List.mem_singleton] at hx
      subst hx
      exact ⟨"hello", rfl⟩
    · cases hcontra
  exact ⟨hshape, overview_extras_bulleted _ hshape⟩

/-! ## Claim C1: missing required fields -/

/-- C1 (counterexample): a record carrying every required field except
`skills` is not rejected — the endpoint serves a (near-empty) document
instead of any 400-class error. -/
theorem missing_required_cex :
    generate_cv (inputMissing "skills") = .file []
    ∧ isFileR (generate_cv (inputMissing "skills")) = true := by
  exact ⟨by decide, by decide⟩

/-- C1 (amended): the endpoint performs no required-field check; a record
from which any one required top-level field is removed (the others present
but empty) is still served as a document — every missing field falls back
to an empty default. -/
theorem missing_required_not_rejected (k : String) (hk : k ∈ requiredKeys) :
    generate_cv (inputMissing k) = .file [] := by
  simp only [requiredKeys, List.mem_cons, List.not_mem_nil, or_false] at hk
  rcases hk with rfl | rfl | rfl | rfl | rfl | rfl <;> decide

/-- C1 (witness): the amended theorem at the record missing `skills`. -/
theorem missing_required_not_rejected_witness :
    "skills" ∈ requiredKeys ∧ generate_cv (inputMissing "skills") = .file [] :=
  ⟨by decide, missing_required_not_rejected "skills" (by decide)⟩

/-! ## Claim C3: the sentinel leaks into rendered text -/

/-- C3: the generic-section dict entry whose name is the sentinel and whose
summary is absent is rendered as the literal paragraph `"N/A - "` inside a
successfully served document.  The guard `text.strip() != "N/A - "`
(line 274) was meant to skip it but can never fire: a stripped string
cannot end in a space. -/
theorem sentinel_dict_entry_rendered :
    isFileR (generate_cv
      (.obj [("projects", JVal.list [JVal.obj [("name", JVal.str "N/A")]])])) = true
    ∧ respTexts (generate_cv
        (.obj [("projects", JVal.list [JVal.obj [("name", JVal.str "N/A")]])]))
      = ["Projects", "N/A - ", ""]
    ∧ "N/A - " ∈ respTexts (generate_cv
        (.obj [("projects", JVal.list [JVal.obj [("name", JVal.str "N/A")]])])) := by
  exact ⟨by decide, by decide, by decide⟩

/-! ## Claim C10: non-record location fails the whole request -/

/-- C10: when `contactDetails.location` holds the sentinel string — or any
other non-record value — the `.get` attribute access on it raises, the
catch-all handler turns it into a 500-class response, and no document is
produced.  (The record and name shapes are constrained only so that
processing reaches line 107.) -/
theorem location_nonrecord_500 (m cm : List (String × JVal)) (lv : JVal)
    (hpi : lookupKey m "personalInformation" = none
        ∨ ∃ pm, lookupKey m "personalInformation" = some (.obj pm)
            ∧ (lookupKey pm "name" = none ∨ ∃ s, lookupKey pm "name" = some (.str s)))
    (hcd : lookupKey m "contactDetails" = some (.obj cm))
    (hloc : lookupKey cm "location" = some lv)
    (hnr : ∀ o, lv ≠ JVal.obj o) :
    generate_cv (.obj m) = .err 500 := by
  have hct : contactTokens (.obj cm) = .error .attributeError := by
    unfold contactTokens
    cases lv with
    | obj o => exact absurd rfl (hnr o)
    | str s => simp [pyGet, hloc]
    | list l => simp [pyGet, hloc]
    | null => simp [pyGet, hloc]
  unfold generate_cv buildDoc
  rcases hpi with hpin | ⟨pm, hpm, hname⟩
  · simp [pyGet, hpin, hcd, nameBlocks, isNA, lookupKey, hct, statusOf]
  · rcases hname with hnn | ⟨s, hs⟩
    · simp [pyGet, hpm, hcd, hnn, nameBlocks, isNA, hct, statusOf]
    · by_cases hsna : s = "N/A"
      · subst hsna
        simp [pyGet, hpm, hcd, hs, nameBlocks, isNA, hct, statusOf]
      · simp [pyGet, hpm, hcd, hs, nameBlocks, isNA, asStr, hsna, hct, statusOf]

/-- C10 (witness): the theorem at the concrete record whose
`contactDetails.location` is the sentinel string. -/
theorem location_nonrecord_500_witness :
    lookupKey [("contactDetails", JVal.obj [("location", JVal.str "N/A")])]
      "personalInformation" = none
    ∧ lookupKey [("contactDetails", JVal.obj [("location", JVal.str "N/A")])]
        "contactDetails" = some (JVal.obj [("location", JVal.str "N/A")])
    ∧ lookupKey [("location", JVal.str "N/A")] "location" = some (JVal.str "N/A")
    ∧ (∀ o, JVal.str "N/A" ≠ JVal.obj o)
    ∧ generate_cv (.obj [("contactDetails", JVal.obj [("location", JVal.str "N/A")])])
        = .err 500 :=
  ⟨rfl, rfl, rfl, fun _o h => JVal.noConfusion h,
   location_nonrecord_500 [("contactDetails", JVal.obj [("location", JVal.str "N/A")])]
     [("location", JVal.str "N/A")] (JVal.str "N/A")
     (Or.inl rfl) rfl rfl (fun _o h => JVal.noConfusion h)⟩
